import Mathlib

/-!
# PhotoFlow Master: verified shallow embedding

A shallow embedding, in Lean 4, of the core logic of the PhotoFlow Master
repository (`src/photoflow/`): filename sanitization (`validators.py`),
filename-collision resolution and file copying (`file_manager.py`), the
earliest-EXIF-date scan and its LRU extraction cache (`exif_handler.py`),
and the project-creation orchestrator (`core.py`).

Modelling conventions:
* Python `datetime` timestamps are modelled as `Nat` (only their linear
  order matters to the scanned properties).
* A filesystem path is a directory component list plus a file name that is
  kept in its `stem`/`suffix` decomposition (mirroring `pathlib.Path.stem`
  and `.suffix`, which the collision resolver reads); paths are taken as
  already resolved.
* The filesystem is a value: the list of existing regular files, plus the
  sets of files whose read-permission check fails and whose byte copy
  fails.  Python exceptions become `Except`/explicit failure branches; the
  `try`/`except` blocks of the source become `match`es on those values.
* The worker pool of `copy_files_concurrent` is modelled by executing the
  copies in the order of the argument list; completion-order nondeterminism
  is captured by quantifying theorems over permutations of that list.
* Exact rational arithmetic (`ℚ`) stands in for Python floats in the
  disk-space computation; `1.2` is `6/5`.
-/

set_option autoImplicit false
set_option maxRecDepth 4096

namespace PhotoFlow

/-! ## validators.py: sanitize_filename -/

/-- The constant `MAX_FILENAME_LENGTH` from `constants.py`. -/
def MAX_FILENAME_LENGTH : Nat := 255

/-- Membership in the character class `INVALID_FILENAME_CHARS`
(the regex class from `constants.py`). -/
def isInvalidFilenameChar (c : Char) : Bool :=
  c = '<' || c = '>' || c = ':' || c = '"' || c = '/' || c = '\\' ||
  c = '|' || c = '?' || c = '*'

/-- The characters the source strips from both ends of the sanitized
name: the `strip` call in `sanitize_filename` removes leading and
trailing dots and spaces. -/
def isStripChar (c : Char) : Bool :=
  c = '.' || c = ' '

/-- Python `s.strip` with the two characters dot and space: drop the
longest run of dots/spaces from both ends. -/
def pyStrip (l : List Char) : List Char :=
  ((l.dropWhile isStripChar).reverse.dropWhile isStripChar).reverse

/-- Model of `validators.sanitize_filename`, on the character list of the input:
replace invalid characters by `REPLACEMENT_CHAR` (an underscore), strip leading and
trailing dots/spaces, fall back to `"unnamed"` when empty, and truncate to
`maxLength`. -/
def sanitize_filename (name : List Char) (maxLength : Nat) : List Char :=
  let sanitized := name.map (fun c => if isInvalidFilenameChar c then '_' else c)
  let sanitized := pyStrip sanitized
  let sanitized := if sanitized = [] then "unnamed".data else sanitized
  if maxLength < sanitized.length then sanitized.take maxLength else sanitized

/-- The sanitizer on a `String`, at the default maximum length. -/
def sanitizeStr (s : String) : String :=
  ⟨sanitize_filename s.data MAX_FILENAME_LENGTH⟩

/-! ## Paths and the filesystem model -/

/-- A file name kept in the `stem`/`suffix` decomposition used by
`pathlib` (`name = stem ++ suffix`). -/
structure FName where
  stem : String
  sfx : String
deriving DecidableEq

/-- A (resolved) path: the directory components and the file name. -/
structure Path where
  dir : List String
  base : FName
deriving DecidableEq

/-- Model of `pathlib.Path.name`. -/
def Path.name (p : Path) : String :=
  p.base.stem ++ p.base.sfx

/-- Filesystem state: existing regular files, files whose readability
check raises `PermissionError`, and files whose byte copy raises. -/
structure FS where
  existing : List Path
  unreadable : List Path
  copyFails : List Path
deriving DecidableEq

/-- Model of `Path.exists` against an `FS` value. -/
def fsExists (fs : FS) (p : Path) : Bool :=
  decide (p ∈ fs.existing)

/-! ## file_manager.py: resolve_collision -/

/-- The candidate name `f"{stem}_{counter}{suffix}"` tried by
`FileManager.resolve_collision`. -/
def collisionCandidate (p : Path) (counter : Nat) : Path :=
  ⟨p.dir, ⟨p.base.stem ++ "_" ++ toString counter, p.base.sfx⟩⟩

/-- The `while True` loop of `resolve_collision`: try
`stem_<counter><suffix>`, `stem_<counter+1><suffix>`, …; the source raises
`FileOperationError` once the counter passes 9999, so the loop body runs at
most 9999 times — `fuel` is the number of attempts left. -/
def collisionLoop (fs : FS) (p : Path) : Nat → Nat → Except String Path
  | _, 0 => .error "Too many collisions (>9999)"
  | counter, fuel + 1 =>
    let nd := collisionCandidate p counter
    if fsExists fs nd then collisionLoop fs p (counter + 1) fuel
    else .ok nd

/-- Model of `FileManager.resolve_collision`: return the destination unchanged when
it does not exist, otherwise the first free `stem_<n><suffix>` for
`n = 1, 2, …`; `.error` models the raised `FileOperationError` after 9999
attempts. -/
def resolve_collision (fs : FS) (destination : Path) : Except String Path :=
  if fsExists fs destination then collisionLoop fs destination 1 9999
  else .ok destination

/-! ## file_manager.py: copy_file / copy_files_concurrent / organize_files -/

/-- Model of the `file_manager.CopyResult` dataclass. -/
structure CopyResult where
  source : Path
  destination : Path
  success : Bool
  error : Option String
  renamed : Bool
deriving DecidableEq

/-- Model of `validators.validate_path(source, must_exist=True, must_be_file=True,
check_readable=True)` as called by `copy_file`: `some msg` is the raised
`PathValidationError`.  The path-depth guard counts `len(path.parts)` as
the directory components plus the file name; `existing` holds regular
files only, so the `must_be_file` re-check cannot fire separately. -/
def validateSource (fs : FS) (source : Path) : Option String :=
  if 10 < source.dir.length + 1 then some "Path depth exceeds 10"
  else if ¬ fsExists fs source then some "Path does not exist"
  else if source ∈ fs.unreadable then some "Path is not readable"
  else none

/-- Model of `FileManager.copy_file`: validate the source, compute the intended
destination `destination_dir / source.name`, resolve a collision when the
intended destination exists (marking `renamed`), then copy.  Every raised
exception inside the `try` lands in the `except` branch, which returns a
failure `CopyResult` whose destination is reset to the intended one and
whose `renamed` is the dataclass default `False`.  A successful copy adds
the resolved destination to the filesystem. -/
def copy_file (fs : FS) (source : Path) (destination_dir : List String) :
    CopyResult × FS :=
  let intended : Path := ⟨destination_dir, source.base⟩
  match validateSource fs source with
  | some msg => (⟨source, intended, false, some msg, false⟩, fs)
  | none =>
    let step : Except String (Path × Bool) :=
      if fsExists fs intended then (resolve_collision fs intended).map (fun d => (d, true))
      else .ok (intended, false)
    match step with
    | .error msg => (⟨source, intended, false, some msg, false⟩, fs)
    | .ok (dest, renamed) =>
      if source ∈ fs.copyFails then
        (⟨source, intended, false, some "copy failed", false⟩, fs)
      else
        (⟨source, dest, true, none, renamed⟩, { fs with existing := dest :: fs.existing })

/-- Model of `FileManager.copy_files_concurrent`: submit `copy_file` for every
file and collect one `CopyResult` per file.  The worker pool is modelled
by running the copies in the order of `files` (theorems quantify over
permutations of that list to cover completion order). -/
def copy_files_concurrent (fs : FS) (files : List Path)
    (destination_dir : List String) : List CopyResult × FS :=
  match files with
  | [] => ([], fs)
  | f :: rest =>
    let out := copy_file fs f destination_dir
    let outs := copy_files_concurrent out.2 rest destination_dir
    (out.1 :: outs.1, outs.2)

/-- Model of `FileManager.organize_files`: enumerate the source files (given here
as the already-enumerated list), return `[]` when there are none (logged,
not an error), otherwise delegate to `copy_files_concurrent`. -/
def organize_files (fs : FS) (files : List Path)
    (destination_dir : List String) : List CopyResult × FS :=
  if files = [] then ([], fs)
  else copy_files_concurrent fs files destination_dir

/-! ## exif_handler.py: find_earliest_date

A candidate file is a name paired with the outcome of
`extract_date` on it: `.error` models a raised `EXIFError`, `.ok none` a
file without a parseable date, `.ok (some d)` a parsed timestamp. -/

/-- One candidate file of the scan. -/
abbrev ScanFile := String × Except String (Option Nat)

/-- The loop body of `EXIFHandler.find_earliest_date`: skip
`EXIFError` files (logged) and dateless files; when a date is strictly
earlier than the running minimum (or is the first found), update the
minimum and invoke the callback — the second component collects the
callback invocations in order. -/
def scanEarliest : Option Nat → List ScanFile → Option Nat × List (String × Nat)
  | earliest, [] => (earliest, [])
  | earliest, (f, r) :: rest =>
    match r, earliest with
    | .error _, e => scanEarliest e rest
    | .ok none, e => scanEarliest e rest
    | .ok (some d), none =>
      let out := scanEarliest (some d) rest
      (out.1, (f, d) :: out.2)
    | .ok (some d), some m =>
      if d < m then
        let out := scanEarliest (some d) rest
        (out.1, (f, d) :: out.2)
      else
        scanEarliest (some m) rest

/-- Model of `EXIFHandler.find_earliest_date`: the final minimum and the ordered
list of callback notifications. -/
def find_earliest_date (files : List ScanFile) : Option Nat × List (String × Nat) :=
  scanEarliest none files

/-- The parseable dates of the candidate files, in visit order. -/
def extractedDates (files : List ScanFile) : List Nat :=
  files.filterMap (fun x =>
    match x.2 with
    | .ok (some d) => some d
    | _ => none)

/-- Whether a candidate file raises `EXIFError`. -/
def isErrB (r : Except String (Option Nat)) : Bool :=
  match r with
  | .error _ => true
  | .ok _ => false

/-- Specification of the notifications: a file is notified exactly when
its date is strictly below every previously seen parseable date (`prev`
accumulates the dates seen so far; ties are not notified). -/
def notifSpec : List Nat → List ScanFile → List (String × Nat)
  | _, [] => []
  | prev, (f, r) :: rest =>
    match r with
    | .ok (some d) =>
      if prev.all (fun p => decide (d < p)) then (f, d) :: notifSpec (d :: prev) rest
      else notifSpec (d :: prev) rest
    | _ => notifSpec prev rest

/-! ## exif_handler.py: the LRU extraction cache -/

/-- The state of `functools.lru_cache` around
`_extract_date_uncached`: entries most-recently-used first, plus the
hit/miss counters. -/
structure CacheState where
  entries : List (String × Option Nat)
  hits : Nat
  misses : Nat
deriving DecidableEq

/-- The ambient world of the extractor: `Path.resolve` and the uncached
file read (`.error` models a raised `EXIFError`, `.ok` a returned
optional date). -/
structure ExifEnv where
  resolvePath : String → String
  readFile : String → Except String (Option Nat)

/-- Model of `EXIFHandler.extract_date`: resolve the path, then go through the
`lru_cache` wrapper.  A hit moves the entry to the front and counts a
hit without reading the file; a miss counts a miss and reads the file —
on success the result (including `none`) is cached at the front and the
least-recently-used entry beyond `cacheSize` is dropped, while a raised
`EXIFError` propagates and caches nothing (CPython `lru_cache` does not
cache a call that raises).  The last component counts the file reads the
call performed. -/
def extract_date (env : ExifEnv) (cacheSize : Nat) (st : CacheState)
    (p : String) : Except String (Option Nat) × CacheState × Nat :=
  let key := env.resolvePath p
  match st.entries.lookup key with
  | some v =>
    (.ok v,
     ⟨(key, v) :: st.entries.filter (fun e => e.1 != key), st.hits + 1, st.misses⟩,
     0)
  | none =>
    match env.readFile key with
    | .error e => (.error e, ⟨st.entries, st.hits, st.misses + 1⟩, 1)
    | .ok v => (.ok v, ⟨((key, v) :: st.entries).take cacheSize, st.hits, st.misses + 1⟩, 1)

/-- The `hit_rate` entry of `EXIFHandler.cache_info`:
`hits / (hits + misses)` when at least one lookup happened, else `0`. -/
def hit_rate (st : CacheState) : ℚ :=
  if 0 < st.hits + st.misses then (st.hits : ℚ) / ((st.hits : ℚ) + (st.misses : ℚ))
  else 0

/-! ## core.py / validators.py: the orchestrator -/

/-- Model of `core.SourceInfo` (path validation at construction is outside the
modelled fragment; the registered path itself plays no further role than
identifying the enumerated files below). -/
structure SourceInfo where
  path : List String
  name : String
  date : Option String
deriving DecidableEq

/-- One regular file enumerated (recursively) under the source path:
its path, its `st_size`, and whether `stat` succeeds
(`estimate_directory_size` skips files whose `stat` raises). -/
structure SrcEntry where
  p : Path
  size : Nat
  statOk : Bool
deriving DecidableEq

/-- The world `create_project` runs against: the destination filesystem,
the free bytes `psutil.disk_usage` reports for the base drive, the
enumeration of the source directory in visit order, and whether the two
directory-creating calls succeed (a `False` models the corresponding
raised `OSError`). -/
structure World where
  fs : FS
  freeBytes : Nat
  srcEntries : List SrcEntry
  mkdirOk : Bool
  structureOk : Bool

/-- Model of `validators.estimate_directory_size`: sum of the sizes of the files
under the source path, skipping files whose `stat` raises. -/
def estimate_directory_size (entries : List SrcEntry) : Nat :=
  (entries.filter (fun e => e.statOk)).foldl (fun acc e => acc + e.size) 0

/-- Model of `validators.check_disk_space` at an explicit `required_gb`:
`available_gb = free / 1024³`; raises `InsufficientSpaceError` (the
`.error` message is its `str`) when `available_gb < required_gb`. -/
def check_disk_space (drivePath : List String) (freeBytes : Nat)
    (required_gb : ℚ) : Except String ℚ :=
  let available_gb : ℚ := (freeBytes : ℚ) / (1024 ^ 3)
  if available_gb < required_gb then
    .error ("Insufficient disk space on " ++ String.intercalate "/" drivePath)
  else
    .ok available_gb

/-- The template `constants.PROJECT_STRUCTURE` as an ordered association list. -/
def PROJECT_STRUCTURE : List (String × List String) :=
  [("01_PRE-PRODUCTION", ["Moodboard", "References", "Brief"]),
   ("02_RAW", []),
   ("03_SELECTS", []),
   ("04_RETOUCHE", ["PSD", "FINALS"]),
   ("05_VIDEO", ["RUSH", "FINALS"]),
   ("06_ADMIN", ["Factures", "Contrats"])]

/-- Directory-creation events and file-copy events, in the order the
side effects happen. -/
inductive Event where
  | mkdirE (dir : List String)
  | copyE (source : Path)
deriving DecidableEq

/-- The `mkdir` events of `FileManager.create_project_structure`: the
project directory, each template folder, each template subfolder. -/
def structureEvents (projectPath : List String) : List Event :=
  Event.mkdirE projectPath ::
    PROJECT_STRUCTURE.foldr
      (fun entry acc =>
        Event.mkdirE (projectPath ++ [entry.1]) ::
          entry.2.map (fun sub => Event.mkdirE (projectPath ++ [entry.1, sub])) ++ acc)
      []

/-- Model of `FileManager.create_project_structure`: sanitize the project name,
create `base_path/<sanitized>` and the template tree (all idempotent
`mkdir`s); an OS failure during creation raises `ProjectStructureError`,
modelled by `structureOk = false` (the partially created tree is
abstracted away). -/
def create_project_structure (structureOk : Bool) (base_path : List String)
    (project_name : String) : Except String (List String × List Event) :=
  let safe := sanitizeStr project_name
  let project_path := base_path ++ [safe]
  if structureOk then .ok (project_path, structureEvents project_path)
  else .error ("Failed to create project structure at " ++ String.intercalate "/" project_path)

/-- Model of `core.ProjectResult` (`project_path = []` models the empty
`Path()` of the `except` branch). -/
structure ProjectResult where
  source : SourceInfo
  project_path : List String
  copy_results : List CopyResult
  success : Bool
  error : Option String

/-- The `ProjectResult` built by the `except` branch of
`create_project`. -/
def failResult (source : SourceInfo) (msg : String) : ProjectResult :=
  ⟨source, [], [], false, some msg⟩

/-- Python truthiness of the optional date string: `if not source.date`
fires on `None` and on the empty string. -/
def dateFalsy (d : Option String) : Prop :=
  d = none ∨ d = some ""

instance (d : Option String) : Decidable (dateFalsy d) := by
  unfold dateFalsy; infer_instance

/-- Model of `PhotoFlowManager.create_project`: validate the date, create
`<drive>/PROJETS_PHOTO/<year>`, check disk space at a 20% margin over the
estimated source size, create the project structure, copy the source
files into `02_RAW`, and succeed iff at least one copy succeeded.  Every
raised exception is caught and becomes a `failResult`.  Returns the
result, the event trace of the side effects performed, and the final
filesystem. -/
def create_project (w : World) (source : SourceInfo)
    (base_drive : List String) : ProjectResult × List Event × FS :=
  if dateFalsy source.date then
    (failResult source ("Date not set for source " ++ source.name), [], w.fs)
  else
    let date := source.date.getD ""
    let year := (date.splitOn "-").headD ""
    let base_path := base_drive ++ ["PROJETS_PHOTO", year]
    if ¬ w.mkdirOk then
      (failResult source "mkdir failed", [], w.fs)
    else
      let ev0 := [Event.mkdirE base_path]
      let project_folder_name := date ++ "_" ++ source.name
      let source_size := estimate_directory_size w.srcEntries
      let required_gb : ℚ := (source_size : ℚ) / (1024 ^ 3) * (6 / 5)
      match check_disk_space base_drive w.freeBytes required_gb with
      | .error msg => (failResult source msg, ev0, w.fs)
      | .ok _ =>
        match create_project_structure w.structureOk base_path project_folder_name with
        | .error msg => (failResult source msg, ev0, w.fs)
        | .ok out =>
          let project_path := out.1
          let raw_folder := project_path ++ ["02_RAW"]
          let files := w.srcEntries.map (fun e => e.p)
          let copied := organize_files w.fs files raw_folder
          let success := copied.1.any (fun r => r.success)
          (⟨source, project_path, copied.1, success, none⟩,
           ev0 ++ out.2 ++ files.map Event.copyE,
           copied.2)

/-! ## Theorems: C3 (sanitize_filename) -/

theorem dropWhile_eq_self_of_none (p : Char → Bool) (l : List Char)
    (h : ∀ c ∈ l, p c = false) : l.dropWhile p = l := by
  cases l with
  | nil => rfl
  | cons a t => simp [List.dropWhile_cons, h a (List.mem_cons_self a t)]

theorem pyStrip_eq_self_of_none (l : List Char)
    (h : ∀ c ∈ l, isStripChar c = false) : pyStrip l = l := by
  unfold pyStrip
  rw [dropWhile_eq_self_of_none _ _ h,
    dropWhile_eq_self_of_none _ _ (fun c hc => h c (List.mem_reverse.mp hc)),
    List.reverse_reverse]

theorem sanitize_filename_ne_nil (l : List Char) :
    sanitize_filename l MAX_FILENAME_LENGTH ≠ [] := by
  simp only [sanitize_filename, MAX_FILENAME_LENGTH]
  set s2 := pyStrip (l.map (fun c => if isInvalidFilenameChar c then '_' else c)) with hs2
  by_cases h2 : s2 = []
  · rw [if_pos h2]
    decide
  · rw [if_neg h2]
    by_cases h3 : 255 < s2.length
    · rw [if_pos h3]
      intro hc
      rcases List.take_eq_nil_iff.mp hc with h | h
      · omega
      · exact h2 h
    · rw [if_neg h3]
      exact h2

/-- C3 counterexample: the claim says an all-invalid-character input
sanitizes to the placeholder name, but `sanitize_filename("***")` replaces
each `*` by `_` and returns `"___"`, not `"unnamed"` (the placeholder only
appears when the stripped result is empty). -/
theorem sanitize_all_invalid_counterexample :
    (∀ c ∈ "***".data, isInvalidFilenameChar c = true) ∧
    sanitize_filename "***".data MAX_FILENAME_LENGTH = "___".data ∧
    sanitize_filename "***".data MAX_FILENAME_LENGTH ≠ "unnamed".data ∧
    sanitize_filename "***".data MAX_FILENAME_LENGTH ≠ [] := by
  refine ⟨by decide, by decide, by decide, by decide⟩

/-- C3 (amended): sanitizing a nonempty already-valid filename (no
invalid characters, no leading/trailing dots or spaces, within the length
limit) returns it unchanged; sanitizing a nonempty all-invalid-character
string returns the same number of replacement underscores — a
nonempty string, but not the placeholder; the result is never the empty
string (a string consisting only of dots and spaces, which strips to
empty, is what yields the placeholder `"unnamed"`). -/
theorem sanitize_filename_spec (l : List Char) :
    ((l ≠ [] ∧ (∀ c ∈ l, isInvalidFilenameChar c = false) ∧ pyStrip l = l ∧
        l.length ≤ MAX_FILENAME_LENGTH) →
      sanitize_filename l MAX_FILENAME_LENGTH = l) ∧
    ((l ≠ [] ∧ l.length ≤ MAX_FILENAME_LENGTH ∧
        ∀ c ∈ l, isInvalidFilenameChar c = true) →
      sanitize_filename l MAX_FILENAME_LENGTH = List.replicate l.length '_') ∧
    ((∀ c ∈ l, isStripChar c = true) →
      sanitize_filename l MAX_FILENAME_LENGTH = "unnamed".data) ∧
    sanitize_filename l MAX_FILENAME_LENGTH ≠ [] := by
  refine ⟨?_, ?_, ?_, sanitize_filename_ne_nil l⟩
  · rintro ⟨hne, hval, hstrip, hlen⟩
    have hmap : l.map (fun c => if isInvalidFilenameChar c then '_' else c) = l := by
      conv_rhs => rw [← List.map_id l]
      exact List.map_congr_left (fun c hc => by simp [hval c hc])
    simp only [MAX_FILENAME_LENGTH] at hlen
    simp only [sanitize_filename, MAX_FILENAME_LENGTH]
    rw [hmap, hstrip, if_neg hne, if_neg (by omega)]
  · rintro ⟨hne, hlen, hval⟩
    have hmap : l.map (fun c => if isInvalidFilenameChar c then '_' else c) =
        List.replicate l.length '_' := by
      refine List.eq_replicate_iff.mpr ⟨by simp, ?_⟩
      intro b hb
      obtain ⟨c, hc, hcb⟩ := List.mem_map.mp hb
      rw [← hcb, hval c hc]
      rfl
    have hstrip : pyStrip (List.replicate l.length '_') = List.replicate l.length '_' := by
      refine pyStrip_eq_self_of_none _ (fun c hc => ?_)
      rw [List.eq_of_mem_replicate hc]
      rfl
    have hlnat : 0 < l.length := List.length_pos.mpr hne
    simp only [MAX_FILENAME_LENGTH] at hlen
    simp only [sanitize_filename, MAX_FILENAME_LENGTH]
    have hrep : List.replicate l.length '_' ≠ [] :=
      List.ne_nil_of_length_pos (by rw [List.length_replicate]; exact hlnat)
    rw [hmap, hstrip, if_neg hrep, if_neg (by simp [List.length_replicate]; omega)]
  · intro hall
    have hdot : ∀ c : Char, isStripChar c = true → c = '.' ∨ c = ' ' := by
      intro c hc
      unfold isStripChar at hc
      simpa using hc
    have hmap : l.map (fun c => if isInvalidFilenameChar c then '_' else c) = l := by
      conv_rhs => rw [← List.map_id l]
      refine List.map_congr_left (fun c hc => ?_)
      rcases hdot c (hall c hc) with h | h <;> rw [h] <;> rfl
    have hstrip : pyStrip l = [] := by
      unfold pyStrip
      have h1 : l.dropWhile isStripChar = [] :=
        List.dropWhile_eq_nil_iff.mpr (fun x hx => hall x hx)
      rw [h1]
      rfl
    simp only [sanitize_filename, MAX_FILENAME_LENGTH]
    rw [hmap, hstrip, if_pos rfl]
    decide

/-- C3 witness: the sanitizer theorem applied to an already-valid
concrete filename, returned unchanged. -/
theorem sanitize_filename_spec_witness :
    sanitize_filename "photo.jpg".data MAX_FILENAME_LENGTH = "photo.jpg".data :=
  (sanitize_filename_spec "photo.jpg".data).1 ⟨by decide, by decide, by decide, by decide⟩

/-! ## Theorems: C2 (resolve_collision) -/

theorem collisionLoop_ok (fs : FS) (p : Path) :
    ∀ fuel counter q, collisionLoop fs p counter fuel = .ok q →
      ∃ k, k < fuel ∧ q = collisionCandidate p (counter + k) ∧
        fsExists fs q = false ∧
        ∀ j, j < k → fsExists fs (collisionCandidate p (counter + j)) = true := by
  intro fuel
  induction fuel with
  | zero => intro counter q h; exact absurd h (by simp [collisionLoop])
  | succ n ih =>
    intro counter q h
    rw [collisionLoop] at h
    by_cases hex : fsExists fs (collisionCandidate p counter) = true
    · rw [if_pos hex] at h
      obtain ⟨k, hk, hq, hfree, hprev⟩ := ih (counter + 1) q h
      refine ⟨k + 1, by omega, by rw [hq]; ring_nf, hfree, ?_⟩
      intro j hj
      cases j with
      | zero => simpa using hex
      | succ j' =>
        have := hprev j' (by omega)
        have harith : counter + 1 + j' = counter + (j' + 1) := by omega
        rwa [harith] at this
    · rw [if_neg hex] at h
      have hq : q = collisionCandidate p counter := by
        simpa using h.symm
      refine ⟨0, by omega, by simpa using hq, ?_, by omega⟩
      rw [hq]
      simpa using hex

theorem collisionLoop_succeeds (fs : FS) (p : Path) :
    ∀ fuel counter,
      (∃ k, k < fuel ∧ fsExists fs (collisionCandidate p (counter + k)) = false) →
      ∃ q, collisionLoop fs p counter fuel = .ok q := by
  intro fuel
  induction fuel with
  | zero => intro counter ⟨k, hk, _⟩; omega
  | succ n ih =>
    intro counter ⟨k, hk, hfree⟩
    rw [collisionLoop]
    by_cases hex : fsExists fs (collisionCandidate p counter) = true
    · rw [if_pos hex]
      cases k with
      | zero => rw [Nat.add_zero] at hfree; rw [hfree] at hex; exact absurd hex (by simp)
      | succ k' =>
        refine ih (counter + 1) ⟨k', by omega, ?_⟩
        have harith : counter + 1 + k' = counter + (k' + 1) := by omega
        rwa [harith]
    · rw [if_neg hex]
      exact ⟨collisionCandidate p counter, rfl⟩

/-- C2: for a fixed filesystem state, `resolve_collision` returns a
nonexistent destination unchanged; on an existing destination it returns
(deterministically — it is a function of the filesystem value) a path in
the same directory named `<stem>_<n><suffix>` that does not exist, for the
smallest such `n ≥ 1` — every smaller candidate exists; and it succeeds
whenever any `n ≤ 9999` is free. -/
theorem resolve_collision_spec (fs : FS) (p : Path) :
    (fsExists fs p = false → resolve_collision fs p = .ok p) ∧
    (∀ q, fsExists fs p = true → resolve_collision fs p = .ok q →
      fsExists fs q = false ∧ q.dir = p.dir ∧
      ∃ n, 1 ≤ n ∧ q = collisionCandidate p n ∧
        ∀ m, 1 ≤ m → m < n → fsExists fs (collisionCandidate p m) = true) ∧
    (fsExists fs p = true →
      (∃ n, 1 ≤ n ∧ n ≤ 9999 ∧ fsExists fs (collisionCandidate p n) = false) →
      ∃ q, resolve_collision fs p = .ok q) := by
  refine ⟨?_, ?_, ?_⟩
  · intro h
    rw [resolve_collision, if_neg (by simp [h])]
  · intro q hex hok
    rw [resolve_collision, if_pos hex] at hok
    obtain ⟨k, hk, hq, hfree, hprev⟩ := collisionLoop_ok fs p 9999 1 q hok
    refine ⟨hfree, by rw [hq]; rfl, 1 + k, by omega, hq, ?_⟩
    intro m hm1 hmk
    have := hprev (m - 1) (by omega)
    have harith : 1 + (m - 1) = m := by omega
    rwa [harith] at this
  · intro hex ⟨n, hn1, hn2, hfree⟩
    rw [resolve_collision, if_pos hex]
    refine collisionLoop_succeeds fs p 9999 1 ⟨n - 1, by omega, ?_⟩
    have harith : 1 + (n - 1) = n := by omega
    rwa [harith]

/-- A concrete filesystem for the C2 witness: `d/a.jpg` and `d/a_1.jpg`
exist, so resolving `d/a.jpg` must land on `d/a_2.jpg`. -/
def c2fs : FS :=
  ⟨[⟨["d"], ⟨"a", ".jpg"⟩⟩, ⟨["d"], ⟨"a_1", ".jpg"⟩⟩], [], []⟩

/-- The intended destination of the C2 witness. -/
def c2p : Path := ⟨["d"], ⟨"a", ".jpg"⟩⟩

/-- C2 witness: the collision-resolution theorem applied to the concrete
two-collision filesystem — the resolved `d/a_2.jpg` is free and sits in
the intended directory. -/
theorem resolve_collision_spec_witness :
    fsExists c2fs (collisionCandidate c2p 2) = false ∧
    (collisionCandidate c2p 2).dir = c2p.dir := by
  have h := (resolve_collision_spec c2fs c2p).2.1 (collisionCandidate c2p 2) (by decide) rfl
  exact ⟨h.1, h.2.1⟩

/-! ## Theorems: C1 (find_earliest_date) -/

theorem scanEarliest_min (l : List ScanFile) :
    ∀ acc, ((scanEarliest acc l).1 = none ↔ acc = none ∧ extractedDates l = []) ∧
      (∀ d, (scanEarliest acc l).1 = some d →
        (d ∈ acc.toList ∨ d ∈ extractedDates l) ∧
        (∀ a ∈ acc.toList, d ≤ a) ∧ (∀ x ∈ extractedDates l, d ≤ x)) := by
  induction l with
  | nil =>
    intro acc
    constructor
    · simp [scanEarliest, extractedDates]
    · intro d hd
      simp only [scanEarliest] at hd
      subst hd
      simp [extractedDates]
  | cons head tail ih =>
    obtain ⟨f, r⟩ := head
    intro acc
    match r with
    | .error e =>
      have h1 : scanEarliest acc ((f, Except.error e) :: tail) = scanEarliest acc tail := by
        cases acc <;> rfl
      have h2 : extractedDates ((f, Except.error e) :: tail) = extractedDates tail := by
        simp [extractedDates, List.filterMap_cons]
      rw [h1, h2]
      exact ih acc
    | .ok none =>
      have h1 : scanEarliest acc ((f, Except.ok none) :: tail) = scanEarliest acc tail := by
        cases acc <;> rfl
      have h2 : extractedDates ((f, Except.ok none) :: tail) = extractedDates tail := by
        simp [extractedDates, List.filterMap_cons]
      rw [h1, h2]
      exact ih acc
    | .ok (some d) =>
      have h2 : extractedDates ((f, Except.ok (some d)) :: tail) = d :: extractedDates tail := by
        simp [extractedDates, List.filterMap_cons]
      match acc with
      | none =>
        have h1 : (scanEarliest none ((f, Except.ok (some d)) :: tail)).1 =
            (scanEarliest (some d) tail).1 := rfl
        constructor
        · rw [h1, h2]
          constructor
          · intro hnone
            have := ((ih (some d)).1).mp hnone
            exact absurd this.1 (by simp)
          · rintro ⟨_, hcons⟩
            exact absurd hcons (by simp)
        · intro d' hd'
          rw [h1] at hd'
          obtain ⟨hmem, hacc, hall⟩ := (ih (some d)).2 d' hd'
          rw [h2]
          refine ⟨?_, by simp, ?_⟩
          · rcases hmem with hm | hm
            · simp only [Option.toList] at hm
              right
              simp_all
            · right; exact List.mem_cons_of_mem d hm
          · intro x hx
            rcases List.mem_cons.mp hx with hx | hx
            · rw [hx]; exact hacc d (by simp)
            · exact hall x hx
      | some m =>
        by_cases hdm : d < m
        · have h1 : (scanEarliest (some m) ((f, Except.ok (some d)) :: tail)).1 =
              (scanEarliest (some d) tail).1 := by
            simp [scanEarliest, if_pos hdm]
          constructor
          · rw [h1, h2]
            constructor
            · intro hnone
              have := ((ih (some d)).1).mp hnone
              exact absurd this.1 (by simp)
            · rintro ⟨hsome, _⟩
              exact absurd hsome (by simp)
          · intro d' hd'
            rw [h1] at hd'
            obtain ⟨hmem, hacc, hall⟩ := (ih (some d)).2 d' hd'
            have hd'd : d' ≤ d := hacc d (by simp)
            rw [h2]
            refine ⟨?_, ?_, ?_⟩
            · right
              rcases hmem with hm | hm
              · simp only [Option.toList, List.mem_singleton] at hm
                subst hm
                exact List.mem_cons_self _ _
              · exact List.mem_cons_of_mem d hm
            · intro a ha
              simp only [Option.toList, List.mem_singleton] at ha
              subst ha
              omega
            · intro x hx
              rcases List.mem_cons.mp hx with hx | hx
              · rw [hx]; exact hd'd
              · exact hall x hx
        · have h1 : (scanEarliest (some m) ((f, Except.ok (some d)) :: tail)).1 =
              (scanEarliest (some m) tail).1 := by
            simp [scanEarliest, if_neg hdm]
          constructor
          · rw [h1, h2]
            constructor
            · intro hnone
              have := ((ih (some m)).1).mp hnone
              exact absurd this.1 (by simp)
            · rintro ⟨hsome, _⟩
              exact absurd hsome (by simp)
          · intro d' hd'
            rw [h1] at hd'
            obtain ⟨hmem, hacc, hall⟩ := (ih (some m)).2 d' hd'
            have hd'm : d' ≤ m := hacc m (by simp)
            rw [h2]
            refine ⟨?_, ?_, ?_⟩
            · rcases hmem with hm | hm
              · left; exact hm
              · right; exact List.mem_cons_of_mem d hm
            · intro a ha
              simp only [Option.toList, List.mem_singleton] at ha
              subst ha
              exact hd'm
            · intro x hx
              rcases List.mem_cons.mp hx with hx | hx
              · rw [hx]; omega
              · exact hall x hx

theorem scanEarliest_notif (l : List ScanFile) :
    ∀ prev m, m ∈ prev → (∀ p ∈ prev, m ≤ p) →
      (scanEarliest (some m) l).2 = notifSpec prev l := by
  induction l with
  | nil => intro prev m _ _; rfl
  | cons head tail ih =>
    obtain ⟨f, r⟩ := head
    intro prev m hmem hmin
    match r with
    | .error e =>
      have h1 : (scanEarliest (some m) ((f, Except.error e) :: tail)).2 =
          (scanEarliest (some m) tail).2 := rfl
      have h2 : notifSpec prev ((f, Except.error e) :: tail) = notifSpec prev tail := rfl
      rw [h1, h2]
      exact ih prev m hmem hmin
    | .ok none =>
      have h1 : (scanEarliest (some m) ((f, Except.ok none) :: tail)).2 =
          (scanEarliest (some m) tail).2 := rfl
      have h2 : notifSpec prev ((f, Except.ok none) :: tail) = notifSpec prev tail := rfl
      rw [h1, h2]
      exact ih prev m hmem hmin
    | .ok (some d) =>
      have hall : (prev.all (fun p => decide (d < p)) = true) ↔ d < m := by
        constructor
        · intro h
          have := List.all_eq_true.mp h m hmem
          simpa using this
        · intro hdm
          refine List.all_eq_true.mpr (fun p hp => ?_)
          have := hmin p hp
          simp only [decide_eq_true_eq]
          omega
      by_cases hdm : d < m
      · have h1 : (scanEarliest (some m) ((f, Except.ok (some d)) :: tail)).2 =
            (f, d) :: (scanEarliest (some d) tail).2 := by
          simp [scanEarliest, if_pos hdm]
        have h2 : notifSpec prev ((f, Except.ok (some d)) :: tail) =
            (f, d) :: notifSpec (d :: prev) tail := by
          simp only [notifSpec, if_pos (hall.mpr hdm)]
        rw [h1, h2]
        congr 1
        refine ih (d :: prev) d (List.mem_cons_self d prev) (fun p hp => ?_)
        rcases List.mem_cons.mp hp with hp | hp
        · omega
        · have := hmin p hp
          omega
      · have h1 : (scanEarliest (some m) ((f, Except.ok (some d)) :: tail)).2 =
            (scanEarliest (some m) tail).2 := by
          simp [scanEarliest, if_neg hdm]
        have h2 : notifSpec prev ((f, Except.ok (some d)) :: tail) =
            notifSpec (d :: prev) tail := by
          simp only [notifSpec,
            if_neg (fun hc => hdm (hall.mp hc))]
        rw [h1, h2]
        refine ih (d :: prev) m (List.mem_cons_of_mem d hmem) (fun p hp => ?_)
        rcases List.mem_cons.mp hp with hp | hp
        · omega
        · exact hmin p hp

theorem find_earliest_date_notif (l : List ScanFile) :
    (find_earliest_date l).2 = notifSpec [] l := by
  unfold find_earliest_date
  induction l with
  | nil => rfl
  | cons head tail ih =>
    obtain ⟨f, r⟩ := head
    match r with
    | .error e => exact ih
    | .ok none => exact ih
    | .ok (some d) =>
      have h1 : (scanEarliest none ((f, Except.ok (some d)) :: tail)).2 =
          (f, d) :: (scanEarliest (some d) tail).2 := rfl
      have h2 : notifSpec [] ((f, Except.ok (some d)) :: tail) =
          (f, d) :: notifSpec [d] tail := by
        simp [notifSpec]
      rw [h1, h2]
      congr 1
      exact scanEarliest_notif tail [d] d (by simp) (by simp)

theorem scanEarliest_skip_errors (l : List ScanFile) :
    ∀ acc, scanEarliest acc (l.filter (fun x => !(isErrB x.2))) = scanEarliest acc l := by
  induction l with
  | nil => intro acc; rfl
  | cons head tail ih =>
    obtain ⟨f, r⟩ := head
    intro acc
    match r with
    | .error e =>
      have hf : ((f, Except.error e) :: tail).filter (fun x => !(isErrB x.2)) =
          tail.filter (fun x => !(isErrB x.2)) := by
        simp [List.filter_cons, isErrB]
      rw [hf, ih acc]
      cases acc <;> rfl
    | .ok none =>
      have hf : ((f, Except.ok none) :: tail).filter (fun x => !(isErrB x.2)) =
          (f, Except.ok none) :: tail.filter (fun x => !(isErrB x.2)) := by
        simp [List.filter_cons, isErrB]
      rw [hf]
      have h1 : ∀ t, scanEarliest acc ((f, Except.ok none) :: t) = scanEarliest acc t := by
        intro t; cases acc <;> rfl
      rw [h1, h1, ih acc]
    | .ok (some d) =>
      have hf : ((f, Except.ok (some d)) :: tail).filter (fun x => !(isErrB x.2)) =
          (f, Except.ok (some d)) :: tail.filter (fun x => !(isErrB x.2)) := by
        simp [List.filter_cons, isErrB]
      rw [hf]
      match acc with
      | none =>
        show ((scanEarliest (some d) (tail.filter _)).1, _) = ((scanEarliest (some d) tail).1, _)
        rw [ih (some d)]
      | some m =>
        by_cases hdm : d < m
        · simp only [scanEarliest, if_pos hdm]
          rw [ih (some d)]
        · simp only [scanEarliest, if_neg hdm]
          exact ih (some m)

/-- C1: the scan returns `none` exactly when no candidate file yielded a
parseable date, and otherwise returns the earliest extracted timestamp;
the notification callback fires exactly on the files whose date is
strictly earlier than every previously seen date (the running minimum) —
ties neither notify nor change the minimum — in file-visit order; and
files raising `EXIFError` are skipped without affecting the scan. -/
theorem find_earliest_date_spec (files : List ScanFile) :
    ((find_earliest_date files).1 = none ↔ extractedDates files = []) ∧
    (∀ d, (find_earliest_date files).1 = some d →
      d ∈ extractedDates files ∧ ∀ x ∈ extractedDates files, d ≤ x) ∧
    ((find_earliest_date files).2 = notifSpec [] files) ∧
    (find_earliest_date (files.filter (fun x => !(isErrB x.2))) = find_earliest_date files) := by
  have hfilterdates : extractedDates (files.filter (fun x => !(isErrB x.2))) =
      extractedDates files := by
    unfold extractedDates
    induction files with
    | nil => rfl
    | cons head tail ih =>
      obtain ⟨f, r⟩ := head
      match r with
      | .error e => simpa [List.filter_cons, isErrB, List.filterMap_cons] using ih
      | .ok none => simpa [List.filter_cons, isErrB, List.filterMap_cons] using ih
      | .ok (some d) => simpa [List.filter_cons, isErrB, List.filterMap_cons] using ih
  refine ⟨?_, ?_, find_earliest_date_notif files, ?_⟩
  · have := (scanEarliest_min files none).1
    simpa [find_earliest_date] using this
  · intro d hd
    have := (scanEarliest_min files none).2 d (by simpa [find_earliest_date] using hd)
    refine ⟨?_, this.2.2⟩
    rcases this.1 with h | h
    · simp at h
    · exact h
  · unfold find_earliest_date
    exact scanEarliest_skip_errors files none

/-- The candidate-file list of the C1 witness: dates 5, then an
`EXIFError` file, then 3, a tie 3, and a dateless file — the scan returns
3 and notifies on the first file and on the first 3. -/
def c1files : List ScanFile :=
  [("a", .ok (some 5)), ("b", .error "boom"), ("c", .ok (some 3)),
   ("d", .ok (some 3)), ("e", .ok none)]

/-- C1 witness: the scan theorem applied to the concrete candidate
list — the returned minimum 3 is an extracted date. -/
theorem find_earliest_date_spec_witness :
    3 ∈ extractedDates c1files ∧ (find_earliest_date c1files).1 = some 3 :=
  ⟨((find_earliest_date_spec c1files).2.1 3 rfl).1, rfl⟩

/-! ## Theorems: C4 / C8 (copy_file and copy_files_concurrent) -/

theorem copy_file_source (fs : FS) (f : Path) (ddir : List String) :
    (copy_file fs f ddir).1.source = f := by
  simp only [copy_file]
  cases hval : validateSource fs f with
  | some msg => rfl
  | none =>
    by_cases hex : fsExists fs ⟨ddir, f.base⟩ = true
    · simp only [hex, if_true]
      cases hres : resolve_collision fs ⟨ddir, f.base⟩ with
      | error msg => rfl
      | ok dest =>
        simp only [Except.map]
        by_cases hcf : f ∈ fs.copyFails <;> simp [hcf]
    · simp only [Bool.not_eq_true] at hex
      simp only [hex, Bool.false_eq_true, if_false]
      by_cases hcf : f ∈ fs.copyFails <;> simp [hcf]

theorem copy_file_fail (fs : FS) (f : Path) (ddir : List String) :
    (copy_file fs f ddir).1.success = false →
      (copy_file fs f ddir).1.error.isSome = true ∧ (copy_file fs f ddir).2 = fs := by
  simp only [copy_file]
  cases hval : validateSource fs f with
  | some msg => intro _; exact ⟨rfl, rfl⟩
  | none =>
    by_cases hex : fsExists fs ⟨ddir, f.base⟩ = true
    · simp only [hex, if_true]
      cases hres : resolve_collision fs ⟨ddir, f.base⟩ with
      | error msg => intro _; exact ⟨rfl, rfl⟩
      | ok dest =>
        simp only [Except.map]
        by_cases hcf : f ∈ fs.copyFails
        · simp only [if_pos hcf]
          intro _; exact ⟨rfl, by simp⟩
        · simp [hcf]
    · simp only [Bool.not_eq_true] at hex
      simp only [hex, Bool.false_eq_true, if_false]
      by_cases hcf : f ∈ fs.copyFails
      · simp only [if_pos hcf]
        intro _; exact ⟨rfl, by simp⟩
      · simp [hcf]

theorem copy_files_concurrent_len_sources (ddir : List String) :
    ∀ (files : List Path) (fs : FS),
      ((copy_files_concurrent fs files ddir).1.length = files.length) ∧
      ((copy_files_concurrent fs files ddir).1.map (fun r => r.source) = files) := by
  intro files
  induction files with
  | nil => intro fs; exact ⟨rfl, rfl⟩
  | cons f rest ih =>
    intro fs
    simp only [copy_files_concurrent, List.length_cons, List.map_cons]
    exact ⟨by rw [(ih _).1], by rw [(ih _).2, copy_file_source]⟩

theorem insertIdx_at_append {α : Type} (a : α) :
    ∀ (l1 l2 : List α), List.insertIdx l1.length a (l1 ++ l2) = l1 ++ a :: l2 := by
  intro l1
  induction l1 with
  | nil => intro l2; rfl
  | cons x xs ih => intro l2; simp [List.insertIdx_succ_cons, ih]

/-- All ways to insert an element into a list (helper for enumerating the
completion orders of a worker pool). -/
def insertEverywhere {α : Type} (a : α) : List α → List (List α)
  | [] => [[a]]
  | b :: t => (a :: b :: t) :: (insertEverywhere a t).map (fun l => b :: l)

/-- All permutations of a list (structural, so it evaluates by
`decide`). -/
def permsOf {α : Type} : List α → List (List α)
  | [] => [[]]
  | a :: t => (permsOf t).flatMap (insertEverywhere a)

/-- The `i`-th source file of the C4 scenario. -/
def c4file (i : Nat) : Path := ⟨["s"], ⟨"f" ++ toString i, ".jpg"⟩⟩

/-- The five source files of the C4 scenario. -/
def c4files : List Path := [c4file 0, c4file 1, c4file 2, c4file 3, c4file 4]

/-- The C4 scenario filesystem: the five source files exist and `f2` is
unreadable (its permission check raises). -/
def c4fs : FS := ⟨c4files, [c4file 2], []⟩

/-- C4: every batch copy returns exactly one outcome per input file, in
submission order over any completion order (the universally quantified
`files` list); a file whose copy fails yields an outcome with a populated
error message and leaves the filesystem unchanged, so removing it from the
batch leaves every other file's outcome identical (its outcome is just
inserted at its position); and, concretely, one unreadable file among 5
yields 5 outcomes — 4 successes and 1 failure with a populated error —
under every completion order. -/
theorem copy_files_concurrent_spec :
    (∀ (fs : FS) (files : List Path) (ddir : List String),
      ((copy_files_concurrent fs files ddir).1.length = files.length) ∧
      ((copy_files_concurrent fs files ddir).1.map (fun r => r.source) = files)) ∧
    (∀ (fs : FS) (f : Path) (ddir : List String),
      (copy_file fs f ddir).1.success = false →
        (copy_file fs f ddir).1.error.isSome = true ∧ (copy_file fs f ddir).2 = fs) ∧
    (∀ (fs : FS) (pre : List Path) (f : Path) (post : List Path) (ddir : List String),
      (copy_file (copy_files_concurrent fs pre ddir).2 f ddir).1.success = false →
      (copy_files_concurrent fs (pre ++ f :: post) ddir).1 =
        List.insertIdx pre.length
          (copy_file (copy_files_concurrent fs pre ddir).2 f ddir).1
          (copy_files_concurrent fs (pre ++ post) ddir).1) ∧
    (∀ order ∈ permsOf c4files,
      ((copy_files_concurrent c4fs order ["d"]).1.length = 5 ∧
       ((copy_files_concurrent c4fs order ["d"]).1.filter
          (fun r => r.success)).length = 4 ∧
       ((copy_files_concurrent c4fs order ["d"]).1.filter
          (fun r => !r.success && r.error.isSome)).length = 1)) := by
  refine ⟨fun fs files ddir => copy_files_concurrent_len_sources ddir files fs,
    copy_file_fail, ?_, by decide⟩
  intro fs pre f post ddir hfail
  induction pre generalizing fs with
  | nil =>
    simp only [List.nil_append, List.length_nil, List.insertIdx_zero]
    simp only [copy_files_concurrent] at hfail ⊢
    rw [(copy_file_fail _ _ _ hfail).2]
  | cons x xs ih =>
    simp only [List.cons_append, List.length_cons]
    simp only [copy_files_concurrent] at hfail ⊢
    rw [List.insertIdx_succ_cons]
    have := ih (copy_file fs x ddir).2 hfail
    simp only [copy_files_concurrent] at this
    rw [this]

/-- C4 witness: the batch theorem applied to the concrete scenario —
the unreadable file `f2` fails, and its removal from the batch leaves the
other outcomes untouched. -/
theorem copy_files_concurrent_spec_witness :
    (copy_files_concurrent c4fs ([] ++ c4file 2 :: [c4file 0]) ["d"]).1 =
      List.insertIdx 0
        (copy_file (copy_files_concurrent c4fs [] ["d"]).2 (c4file 2) ["d"]).1
        (copy_files_concurrent c4fs ([] ++ [c4file 0]) ["d"]).1 :=
  copy_files_concurrent_spec.2.2.1 c4fs [] (c4file 2) [c4file 0] ["d"] (by decide)

theorem copy_file_renamed_iff (fs : FS) (f : Path) (ddir : List String) :
    (copy_file fs f ddir).1.success = true →
      ((copy_file fs f ddir).1.renamed = true ↔ fsExists fs ⟨ddir, f.base⟩ = true) := by
  simp only [copy_file]
  cases hval : validateSource fs f with
  | some msg => intro h; exact absurd h (by simp)
  | none =>
    by_cases hex : fsExists fs ⟨ddir, f.base⟩ = true
    · simp only [hex, if_true]
      cases hres : resolve_collision fs ⟨ddir, f.base⟩ with
      | error msg => intro h; exact absurd h (by simp [Except.map])
      | ok dest =>
        simp only [Except.map]
        by_cases hcf : f ∈ fs.copyFails
        · simp only [if_pos hcf]; intro h; exact absurd h (by simp)
        · simp [hcf, hex]
    · have hex' : fsExists fs ⟨ddir, f.base⟩ = false := by simpa using hex
      simp only [hex', Bool.false_eq_true, if_false]
      by_cases hcf : f ∈ fs.copyFails
      · simp only [if_pos hcf]; intro h; exact absurd h (by simp)
      · simp [hcf, hex']

theorem copy_file_renamed_alters (fs : FS) (f : Path) (ddir : List String) :
    (copy_file fs f ddir).1.success = true → (copy_file fs f ddir).1.renamed = true →
      (copy_file fs f ddir).1.destination.base ≠ f.base := by
  simp only [copy_file]
  cases hval : validateSource fs f with
  | some msg => intro h; exact absurd h (by simp)
  | none =>
    by_cases hex : fsExists fs ⟨ddir, f.base⟩ = true
    · simp only [hex, if_true]
      cases hres : resolve_collision fs ⟨ddir, f.base⟩ with
      | error msg => intro h; exact absurd h (by simp [Except.map])
      | ok dest =>
        simp only [Except.map]
        by_cases hcf : f ∈ fs.copyFails
        · simp only [if_pos hcf]; intro h; exact absurd h (by simp)
        · simp only [if_neg hcf]
          intro _ _
          rw [resolve_collision, if_pos hex] at hres
          obtain ⟨k, _, hq, _, _⟩ := collisionLoop_ok fs ⟨ddir, f.base⟩ 9999 1 dest hres
          rw [hq]
          simp only [collisionCandidate, ne_eq]
          intro heq
          have hstem : f.base.stem ++ "_" ++ toString (1 + k) = f.base.stem :=
            congrArg FName.stem heq
          have hlen := congrArg String.length hstem
          simp only [String.length_append] at hlen
          have hone : ("_" : String).length = 1 := rfl
          omega
    · have hex' : fsExists fs ⟨ddir, f.base⟩ = false := by simpa using hex
      simp only [hex', Bool.false_eq_true, if_false]
      by_cases hcf : f ∈ fs.copyFails
      · simp only [if_pos hcf]; intro h; exact absurd h (by simp)
      · simp [hcf]

/-- The three source files of the C8 scenario. -/
def c8files : List Path :=
  [⟨["s"], ⟨"a", ".jpg"⟩⟩, ⟨["s"], ⟨"b", ".jpg"⟩⟩, ⟨["s"], ⟨"c", ".jpg"⟩⟩]

/-- The C8 scenario filesystem: the three readable source files, and the
destination directory already holds `a.jpg`, so exactly that copy
collides. -/
def c8fs : FS :=
  ⟨⟨["d"], ⟨"a", ".jpg"⟩⟩ :: c8files, [], []⟩

/-- C8 (amended): for every file copy that succeeds, the outcome's
`renamed` flag is true iff the intended destination
`destination_dir / source.name` already existed (and then collision
resolution really altered the name); and copying 3 files where one
destination name collides yields, under every completion order, exactly 2
outcomes with `renamed = false`, 1 with `renamed = true`, all 3
successful, and 3 distinct files present in the destination.  (The
restriction to successful copies is forced: a copy that resolves a
collision and then fails reports `renamed = false`.) -/
theorem copy_file_renamed_spec :
    (∀ (fs : FS) (f : Path) (ddir : List String),
      (copy_file fs f ddir).1.success = true →
        ((copy_file fs f ddir).1.renamed = true ↔ fsExists fs ⟨ddir, f.base⟩ = true)) ∧
    (∀ (fs : FS) (f : Path) (ddir : List String),
      (copy_file fs f ddir).1.success = true → (copy_file fs f ddir).1.renamed = true →
        (copy_file fs f ddir).1.destination.base ≠ f.base) ∧
    (∀ order ∈ permsOf c8files,
      ((copy_files_concurrent c8fs order ["d"]).1.filter (fun r => r.renamed)).length = 1 ∧
      ((copy_files_concurrent c8fs order ["d"]).1.filter (fun r => !r.renamed)).length = 2 ∧
      (∀ r ∈ (copy_files_concurrent c8fs order ["d"]).1, r.success = true) ∧
      ((copy_files_concurrent c8fs order ["d"]).1.map (fun r => r.destination)).Nodup ∧
      (∀ r ∈ (copy_files_concurrent c8fs order ["d"]).1,
        fsExists (copy_files_concurrent c8fs order ["d"]).2 r.destination = true)) :=
  ⟨copy_file_renamed_iff, copy_file_renamed_alters, by decide⟩

/-- The C8 counterexample filesystem: the source `s/a.jpg` exists and is
readable, the intended destination `d/a.jpg` exists, and the byte copy of
`s/a.jpg` fails. -/
def c8xfs : FS :=
  ⟨[⟨["s"], ⟨"a", ".jpg"⟩⟩, ⟨["d"], ⟨"a", ".jpg"⟩⟩], [], [⟨["s"], ⟨"a", ".jpg"⟩⟩]⟩

/-- C8 counterexample: when a copy passes validation, resolves a real
collision (the intended destination exists and resolution picks the
altered name `a_1.jpg`), and then the byte copy fails, the outcome
reports `renamed = false` — the claim's iff fails on failed copies, since
the `except` branch of the source rebuilds the outcome with the
dataclass default `renamed=False`. -/
theorem copy_file_renamed_counterexample :
    fsExists c8xfs ⟨["d"], ⟨"a", ".jpg"⟩⟩ = true ∧
    resolve_collision c8xfs ⟨["d"], ⟨"a", ".jpg"⟩⟩ = .ok ⟨["d"], ⟨"a_1", ".jpg"⟩⟩ ∧
    (⟨["d"], ⟨"a_1", ".jpg"⟩⟩ : Path).base ≠ (⟨["s"], ⟨"a", ".jpg"⟩⟩ : Path).base ∧
    (copy_file c8xfs ⟨["s"], ⟨"a", ".jpg"⟩⟩ ["d"]).1.success = false ∧
    (copy_file c8xfs ⟨["s"], ⟨"a", ".jpg"⟩⟩ ["d"]).1.renamed = false :=
  ⟨by decide, rfl, by decide, rfl, rfl⟩

/-- C8 witness: the amended renamed-flag theorem applied to the copy of
`s/b.jpg` in the concrete scenario (a successful, non-colliding copy). -/
theorem copy_file_renamed_spec_witness :
    ((copy_file c8fs ⟨["s"], ⟨"b", ".jpg"⟩⟩ ["d"]).1.renamed = true ↔
      fsExists c8fs ⟨["d"], (⟨["s"], ⟨"b", ".jpg"⟩⟩ : Path).base⟩ = true) :=
  copy_file_renamed_spec.1 c8fs ⟨["s"], ⟨"b", ".jpg"⟩⟩ ["d"] (by decide)

/-! ## Theorems: C9 (the LRU extraction cache) -/

/-- C9 counterexample: a file whose extraction raises `EXIFError` is not
cached (`lru_cache` caches nothing when the wrapped call raises), so the
second call for the same path reads the file again — one read on the
first call and one read on the second, refuting "the second call returns
the cached result, for any outcome of the first call". -/
theorem extract_date_cache_counterexample :
    (extract_date ⟨id, fun _ => .error "Cannot open image"⟩ 128 ⟨[], 0, 0⟩ "p").2.2 = 1 ∧
    (extract_date ⟨id, fun _ => .error "Cannot open image"⟩ 128
      (extract_date ⟨id, fun _ => .error "Cannot open image"⟩ 128 ⟨[], 0, 0⟩ "p").2.1
      "p").2.2 = 1 :=
  ⟨rfl, rfl⟩

/-- C9 (amended): extraction is keyed by the resolved path (two paths
with the same resolution are indistinguishable to the cache); when a call
returns a value (`some` or `none`, i.e. does not raise), an immediately
repeated call for the same path returns that cached value and performs
zero file reads (for any positive cache capacity); and the reported
hit-rate ratio is `0` when no lookups have yet occurred.  (The
restriction to non-raising first calls is forced: `lru_cache` does not
cache a raising call, so an `EXIFError` file is re-read.) -/
theorem extract_date_cache_spec :
    (∀ (env : ExifEnv) (n : Nat) (st : CacheState) (p q : String),
      env.resolvePath p = env.resolvePath q →
      extract_date env n st p = extract_date env n st q) ∧
    (∀ (env : ExifEnv) (n : Nat) (st : CacheState) (p : String) (v : Option Nat),
      1 ≤ n → (extract_date env n st p).1 = .ok v →
      (extract_date env n (extract_date env n st p).2.1 p).1 = .ok v ∧
      (extract_date env n (extract_date env n st p).2.1 p).2.2 = 0) ∧
    (∀ entries : List (String × Option Nat), hit_rate ⟨entries, 0, 0⟩ = 0) := by
  refine ⟨?_, ?_, fun entries => rfl⟩
  · intro env n st p q h
    simp only [extract_date, h]
  · intro env n st p v hn
    cases hl : st.entries.lookup (env.resolvePath p) with
    | some v0 =>
      simp only [extract_date, hl]
      intro hv
      have hv0 : v0 = v := by simpa using hv
      subst hv0
      simp [List.lookup]
    | none =>
      cases hr : env.readFile (env.resolvePath p) with
      | error e =>
        simp only [extract_date, hl, hr]
        intro hv
        exact absurd hv (by simp)
      | ok v0 =>
        simp only [extract_date, hl, hr]
        intro hv
        have hv0 : v0 = v := by simpa using hv
        subst hv0
        obtain ⟨m, rfl⟩ : ∃ m, n = m + 1 := ⟨n - 1, by omega⟩
        simp [List.take_succ_cons, List.lookup]

/-- C9 witness: the cache theorem applied to a concrete environment whose
read returns `some 7` — the repeated call is a hit with zero reads. -/
theorem extract_date_cache_spec_witness :
    (extract_date ⟨id, fun _ => .ok (some 7)⟩ 128
      (extract_date ⟨id, fun _ => .ok (some 7)⟩ 128 ⟨[], 0, 0⟩ "p").2.1 "p").1 =
        .ok (some 7) ∧
    (extract_date ⟨id, fun _ => .ok (some 7)⟩ 128
      (extract_date ⟨id, fun _ => .ok (some 7)⟩ 128 ⟨[], 0, 0⟩ "p").2.1 "p").2.2 = 0 :=
  extract_date_cache_spec.2.1 ⟨id, fun _ => .ok (some 7)⟩ 128 ⟨[], 0, 0⟩ "p" (some 7)
    (by omega) rfl

/-! ## Theorems: C5, C6, C7, C10 (create_project) -/

theorem space_guard_iff (free size : Nat) :
    ((free : ℚ) / (1024 ^ 3) < (size : ℚ) / (1024 ^ 3) * (6 / 5)) ↔
      ((free : ℚ) < 6 / 5 * (size : ℚ)) := by
  rw [div_mul_eq_mul_div, div_lt_div_iff_of_pos_right (by norm_num : (0 : ℚ) < 1024 ^ 3),
    mul_comm]

/-- C6: when the source date is unset, `create_project` returns a failure
result whose error names the missing date, and performs no side effect at
all: no directory is created under the destination (the event trace is
empty) and the filesystem is unchanged. -/
theorem create_project_no_date (w : World) (source : SourceInfo)
    (base_drive : List String) (h : source.date = none) :
    (create_project w source base_drive).1.success = false ∧
    (create_project w source base_drive).1.error =
      some ("Date not set for source " ++ source.name) ∧
    (create_project w source base_drive).1.project_path = [] ∧
    (create_project w source base_drive).1.copy_results = [] ∧
    (create_project w source base_drive).2.1 = [] ∧
    (create_project w source base_drive).2.2 = w.fs := by
  have hd : dateFalsy source.date := Or.inl h
  refine ⟨?_, ?_, ?_, ?_, ?_, ?_⟩ <;>
    simp [create_project, if_pos hd, failResult]

/-- The source of the create_project witnesses: a set date. -/
def cpSrc : SourceInfo := ⟨["src"], "S", some "2023-12-31"⟩

/-- C6 witness: the no-date theorem applied to a concrete dateless
source. -/
theorem create_project_no_date_witness :
    (create_project ⟨⟨[], [], []⟩, 0, [], true, true⟩ ⟨["src"], "S", none⟩ ["D"]).1.error =
      some ("Date not set for source " ++ "S") ∧
    (create_project ⟨⟨[], [], []⟩, 0, [], true, true⟩ ⟨["src"], "S", none⟩ ["D"]).2.1 = [] := by
  have h := create_project_no_date ⟨⟨[], [], []⟩, 0, [], true, true⟩ ⟨["src"], "S", none⟩ ["D"] rfl
  exact ⟨h.2.1, h.2.2.2.2.1⟩

/-- C7: when the destination's free space is below 1.2× the estimated
source size, `create_project` fails with the `InsufficientSpaceError`
message before any file copy occurs: no copy event is in the trace, no
outcome is produced, and the filesystem is unchanged (only the
`PROJETS_PHOTO/<year>` mkdir, which the source performs before the check,
is traced). -/
theorem create_project_insufficient_space (w : World) (source : SourceInfo)
    (base_drive : List String) (hdate : ¬ dateFalsy source.date)
    (hmk : w.mkdirOk = true)
    (hspace : (w.freeBytes : ℚ) < 6 / 5 * (estimate_directory_size w.srcEntries : ℚ)) :
    (create_project w source base_drive).1.success = false ∧
    (create_project w source base_drive).1.error =
      some ("Insufficient disk space on " ++ String.intercalate "/" base_drive) ∧
    (create_project w source base_drive).1.copy_results = [] ∧
    (∀ e ∈ (create_project w source base_drive).2.1, ∀ f, e ≠ Event.copyE f) ∧
    (create_project w source base_drive).2.2 = w.fs := by
  have hlt : ((w.freeBytes : ℚ) / (1024 ^ 3)) <
      (estimate_directory_size w.srcEntries : ℚ) / (1024 ^ 3) * (6 / 5) :=
    (space_guard_iff _ _).mpr hspace
  have hcds : check_disk_space base_drive w.freeBytes
      ((estimate_directory_size w.srcEntries : ℚ) / (1024 ^ 3) * (6 / 5)) =
      .error ("Insufficient disk space on " ++ String.intercalate "/" base_drive) := by
    simp only [check_disk_space, if_pos hlt]
  refine ⟨?_, ?_, ?_, ?_, ?_⟩
  · simp [create_project, if_neg hdate, hmk, hcds, failResult]
  · simp [create_project, if_neg hdate, hmk, hcds, failResult]
  · simp [create_project, if_neg hdate, hmk, hcds, failResult]
  · intro e he f
    simp [create_project, if_neg hdate, hmk, hcds, failResult] at he
    rw [he]
    simp
  · simp [create_project, if_neg hdate, hmk, hcds, failResult]

/-- C7 witness: the insufficient-space theorem applied to a concrete
world with a 1 GiB source and exactly 1 GiB free (1 < 1.2). -/
theorem create_project_insufficient_space_witness :
    (create_project ⟨⟨[], [], []⟩, 1073741824,
        [⟨⟨["src"], ⟨"x", ".arw"⟩⟩, 1073741824, true⟩], true, true⟩ cpSrc ["D"]).1.success
      = false ∧
    (create_project ⟨⟨[], [], []⟩, 1073741824,
        [⟨⟨["src"], ⟨"x", ".arw"⟩⟩, 1073741824, true⟩], true, true⟩ cpSrc ["D"]).1.error =
      some ("Insufficient disk space on " ++ String.intercalate "/" ["D"]) ∧
    (create_project ⟨⟨[], [], []⟩, 1073741824,
        [⟨⟨["src"], ⟨"x", ".arw"⟩⟩, 1073741824, true⟩], true, true⟩ cpSrc ["D"]).1.copy_results
      = [] := by
  have h := create_project_insufficient_space
    ⟨⟨[], [], []⟩, 1073741824, [⟨⟨["src"], ⟨"x", ".arw"⟩⟩, 1073741824, true⟩], true, true⟩
    cpSrc ["D"] (by decide) rfl
    (by norm_num [estimate_directory_size])
  exact ⟨h.1, h.2.1, h.2.2.1⟩

/-- C5: when `create_project` reaches the file-copy phase (date set,
directory creation and the space check pass), the returned result
succeeds iff at least one file copy succeeded, its error is `none`, and a
source with zero copyable files yields `success = false` with an empty
outcome list even though no individual copy errored. -/
theorem create_project_success_iff (w : World) (source : SourceInfo)
    (base_drive : List String) (hdate : ¬ dateFalsy source.date)
    (hmk : w.mkdirOk = true)
    (hspace : 6 / 5 * (estimate_directory_size w.srcEntries : ℚ) ≤ (w.freeBytes : ℚ))
    (hstruct : w.structureOk = true) :
    ((create_project w source base_drive).1.success = true ↔
      ∃ r ∈ (create_project w source base_drive).1.copy_results, r.success = true) ∧
    ((create_project w source base_drive).1.error = none) ∧
    (w.srcEntries = [] →
      (create_project w source base_drive).1.success = false ∧
      (create_project w source base_drive).1.copy_results = []) := by
  have hnot : ¬ (((w.freeBytes : ℚ) / (1024 ^ 3)) <
      (estimate_directory_size w.srcEntries : ℚ) / (1024 ^ 3) * (6 / 5)) := by
    rw [space_guard_iff]
    exact not_lt.mpr hspace
  have hcds : check_disk_space base_drive w.freeBytes
      ((estimate_directory_size w.srcEntries : ℚ) / (1024 ^ 3) * (6 / 5)) =
      .ok ((w.freeBytes : ℚ) / (1024 ^ 3)) := by
    simp only [check_disk_space, if_neg hnot]
  refine ⟨?_, ?_, ?_⟩
  · simp [create_project, if_neg hdate, hmk, hcds, create_project_structure, hstruct,
      List.any_eq_true]
  · simp [create_project, if_neg hdate, hmk, hcds, create_project_structure, hstruct]
  · intro hsrc
    rw [hsrc] at hcds
    constructor <;>
      simp [create_project, if_neg hdate, hmk, hcds, create_project_structure, hstruct,
        hsrc, organize_files]

/-- C5 witness: the success-iff theorem applied to a concrete world with
zero copyable files — the result fails with no outcomes. -/
theorem create_project_success_iff_witness :
    (create_project ⟨⟨[], [], []⟩, 0, [], true, true⟩ cpSrc ["D"]).1.success = false ∧
    (create_project ⟨⟨[], [], []⟩, 0, [], true, true⟩ cpSrc ["D"]).1.copy_results = [] :=
  (create_project_success_iff ⟨⟨[], [], []⟩, 0, [], true, true⟩ cpSrc ["D"]
    (by decide) rfl (by norm_num [estimate_directory_size]) rfl).2.2 rfl

/-- C10: `create_project` is total — it always returns a `ProjectResult`
(every raised exception is caught), and every result either completed the
pipeline (error `none`) or is the `except`-branch shape: `success =
false`, an empty project path, an empty outcome list, and a populated
error message. -/
theorem create_project_total (w : World) (source : SourceInfo)
    (base_drive : List String) :
    (create_project w source base_drive).1.error = none ∨
    ((create_project w source base_drive).1.success = false ∧
     (create_project w source base_drive).1.project_path = [] ∧
     (create_project w source base_drive).1.copy_results = [] ∧
     (create_project w source base_drive).1.error.isSome = true) := by
  simp only [create_project]
  split
  · right; simp [failResult]
  · split
    · right; simp [failResult]
    · split
      · right; simp [failResult]
      · split
        · right; simp [failResult]
        · left; rfl

end PhotoFlow
